import Mathlib

/-!
# sonarqube-gen: the example-to-schema pipeline of `gen/`

A shallow embedding of `gen/action.go`, `gen/helpers.go`, `gen/service.go` and
`gen/main.go`, with theorems about the response-field generator, the paging
projection, example fetching and service processing.

Conventions of the embedding.

* A decoded JSON document (Go `interface{}` filled by `encoding/json`) is a value
  of `JSON`.  A Go `map[string]interface{}` is an association list; reading a key
  takes the first entry with that key and `delete` removes every entry with it,
  so all statements hold whether or not the list has repeated keys.
* A Go call can return or panic: `Outcome`.  A Go `error` is `Option String`
  (`none` is `nil`).
* `gen/field.go` (the `Field` variants and `FieldParser`) is not part of the
  sources at hand.  Its constructors are taken as a parameter (`FieldParser`),
  which may return any field or panic.
-/

namespace SonarqubeGen

/-! ## Decoded JSON values -/

/-- A value produced by `json.Unmarshal` into an `interface{}`: `nil`, `bool`,
`float64`, `string`, `[]interface{}` or `map[string]interface{}`.  The numeric
payload is never inspected by the code modelled here; an integer stands for it. -/
inductive JSON where
  | null : JSON
  | bool (b : Bool) : JSON
  | num (n : Int) : JSON
  | str (s : String) : JSON
  | arr (items : List JSON) : JSON
  | obj (entries : List (String × JSON)) : JSON

/-- A Go `map[string]interface{}`. -/
abbrev GoMap := List (String × JSON)

/-- The Go index expression `m[key]` in its two-value form: the value and `ok`. -/
def GoMap.get (m : GoMap) (key : String) : Option JSON :=
  match m with
  | [] => none
  | (k, v) :: rest => if k = key then some v else GoMap.get rest key

/-- The Go builtin `delete(m, key)`: a no-op when the key is absent. -/
def GoMap.delete (m : GoMap) (key : String) : GoMap :=
  m.filter fun kv => !(kv.1 == key)

/-- The keys of a map, in the order of the association list. -/
def GoMap.keys (m : GoMap) : List String :=
  m.map Prod.fst

/-! ## Outcomes of Go calls -/

/-- The outcome of a Go call: it returns a value or it panics with a message. -/
inductive Outcome (α : Type) where
  | returned (value : α) : Outcome α
  | panicked (msg : String) : Outcome α

/-- Sequencing of Go calls: a panic of the first call is a panic of the whole. -/
def Outcome.andThen {α β : Type} (o : Outcome α) (f : α → Outcome β) : Outcome β :=
  match o with
  | .returned a => f a
  | .panicked msg => .panicked msg

/-! ## Fields -/

/-- Modelled from the spec: the `Field` interface and its implementations live in
`gen/field.go`, which is absent.  The variants named by the sources at hand are
kept (`EmptyField`, `StringField`, `MapField` with its `fields` and the result of
`Accessors()`, `SliceField`); `other` stands for every further implementation. -/
inductive Field where
  | EmptyField : Field
  | StringField (name : String) : Field
  | MapField (name : String) (accessors : List String) (fields : List Field) : Field
  | SliceField (name : String) (field : Field) : Field
  | other (typeName : String) (name : String) : Field

/-- The test `reflect.TypeOf(f) == reflect.TypeOf(&MapField{})`, equally the type
assertion `f.(*MapField)` succeeding. -/
def Field.isMapField : Field → Bool
  | .MapField _ _ _ => true
  | _ => false

/-- The test `reflect.TypeOf(f) == reflect.TypeOf(&EmptyField{})`. -/
def Field.isEmptyField : Field → Bool
  | .EmptyField => true
  | _ => false

/-- The test of the type switch `case *SliceField`. -/
def Field.isSliceField : Field → Bool
  | .SliceField _ _ => true
  | _ => false

/-- Modelled from the spec: `FieldParser` of the absent `gen/field.go`.  The call
sites `g.parser.NewSliceField(name, slice)` and `g.parser.NewMapField(name, m)`
fix the arguments and the single `Field` result; what the two build is left
free, and either may panic. -/
structure FieldParser where
  NewSliceField : String → List JSON → Outcome Field
  NewMapField : String → GoMap → Outcome Field

/-! ## Generated code

The generator builds Go source with the `jennifer/jen` library.  A `*Statement`
is the list of the items chained onto it, in order. -/

/-- The item-less tokens of `jen` used by the generator: `Func()`, `Type()`,
`String()`, `Error()`, `Nil()`, `Err()`, `Break()`, `If()`, `Else()`, and `Int()`,
which occurs in the commented-out entries of `responseStructPagingFunc`. -/
inductive Keyword where
  | func | type | string | error | nil | err | break | ifKw | elseKw | int
  deriving DecidableEq, Repr

/-- The bracketing items of `jen` used by the generator: `Parens`, `Call`,
`Params`, `Block`, `Values`, `Struct`, `Return`, `If`, `For`, `New`, and a
`Dict` with its key-value entries. -/
inductive Group where
  | parens | call | params | block | values | struct | ret | ifStmt | forStmt | new
  | dict | entry
  deriving DecidableEq, Repr

/-- One item of generated code.  `nilCode` is a nil `Code` value, such as an
unset slot of a `[]Code`; `empty` is `Empty()`, which renders nothing;
`stmt` is a whole `*Statement` passed where a `Code` is expected. -/
inductive Code where
  | nilCode : Code
  | empty : Code
  | line : Code
  | keyword (k : Keyword) : Code
  | id (name : String) : Code
  | op (o : String) : Code
  | dot (name : String) : Code
  | qual (path : String) (name : String) : Code
  | lit (s : String) : Code
  | litInt (n : Int) : Code
  | comment (text : String) : Code
  | tag (key : String) (value : String) : Code
  | group (g : Group) (items : List Code) : Code
  | stmt (items : List Code) : Code

/-- A `*jen.Statement`. -/
abbrev Statement := List Code

/-- The statement `Empty()`. -/
def Empty : Statement := [Code.empty]

/-- The statement `Nil()`. -/
def Nil : Statement := [Code.keyword .nil]

/-! ## The surroundings of the generator -/

set_option linter.dupNamespace false in
/-- The struct `Example`: the envelope the server answers with. -/
structure Example where
  Format : String
  Example : String

/-- The struct `ResponseExampleRequest`. -/
structure ResponseExampleRequest where
  ID : String
  RequestID : String
  Action : String
  Controller : String

/-- The struct `Param`. -/
structure Param where
  Key : String
  Description : String
  Internal : Bool
  Required : Bool
  Since : String
  DeprecatedSince : String

/-- The struct `Action` (each `ChangeLog` entry is a version and a description). -/
structure Action where
  Key : String
  Description : String
  Internal : Bool
  Post : Bool
  HasResponseExample : Bool
  Params : List Param
  ChangeLog : List (String × String)
  Since : String
  DeprecatedSince : String

/-- The struct `Service`. -/
structure Service where
  Path : String
  Description : String
  Actions : List Action

/-- A generated source file (`jen.File`): its package name, the import names
registered on it and the statements added to it, in order. -/
structure File where
  name : String
  importNames : List (String × String)
  items : List Statement

/-- Everything the generator takes from outside `gen/`: the libraries
(`strcase.ToCamel`, `strings.NewReplacer(..).Replace` with the table of
`replaceTags`, `json.Unmarshal`, the HTTP client, `File.Save`) and the absent
`gen/field.go` (`Field.Render`, and `NewFieldParser` applied to the service, the
action and the overrides filtered for them).  `clientDo` answers a request with
a transport error or with the outcome of reading the body. -/
structure World where
  toCamel : String → String
  replaceTags : String → String
  render : Field → Bool → Code
  newFieldParser : Service → Action → FieldParser
  clientDo : ResponseExampleRequest → Except String (Except String String)
  unmarshalExample : String → Except String Example
  unmarshal : String → Except String JSON
  save : String → File → Option String

/-! ## `gen/helpers.go` -/

/-- The function `contains(needle, haystack)`: a linear scan with `==`. -/
def contains (needle : String) (haystack : List String) : Bool :=
  match haystack with
  | [] => false
  | hay :: rest => if hay = needle then true else contains needle rest

/-- The comparison `a < b` of two Go strings, on their characters: the first
difference decides, and a proper beginning of a string is less than the string.
Go compares the bytes of the UTF-8 encoding, which orders strings as their code
points do. -/
def charsLess : List Char → List Char → Bool
  | _, [] => false
  | [], _ :: _ => true
  | a :: as, b :: bs => if a = b then charsLess as bs else decide (a < b)

/-- The comparison `a < b` of two Go strings. -/
def stringLess (a b : String) : Bool :=
  charsLess a.data b.data

/-- The call `sort.Strings(keys)` of the standard library: the strings in
ascending order, `a` before `b` unless `b < a`. -/
def sortStrings (keys : List String) : List String :=
  keys.insertionSort fun a b => stringLess b a = false

/-- The function `sortedKeys`: the keys of the map in the order `range` yields
them, here the order of the association list, then sorted. -/
def sortedKeys (m : GoMap) : List String :=
  sortStrings (GoMap.keys m)

/-- The function `renderId`. -/
def renderId (w : World) (name : String) : Statement :=
  [Code.id (w.toCamel name)]

/-- The function `qualifier`. -/
def qualifier (pkg : String) : String :=
  "github.com/shijl0925/go-sonarqube/sonarqube/" ++ pkg

/-- The function `ifTrueGen`. -/
def ifTrueGen (ok : Bool) (statement : Statement) : Statement :=
  if ok then statement else Empty

/-- The function `ifTrueGenOrNil`. -/
def ifTrueGenOrNil (ok : Bool) (statement : Statement) : Statement :=
  if ok then statement else Nil

/-- The function `ifErrorReturn`. -/
def ifErrorReturn (ok : Bool) : Statement :=
  if ok then
    [Code.group .ifStmt [Code.stmt [Code.keyword .err, Code.op "!=", Code.keyword .nil]],
     Code.group .block [Code.stmt [Code.group .ret
       [Code.stmt [Code.keyword .nil, Code.op ",", Code.op "err"]]]]]
  else
    [Code.group .ifStmt [Code.stmt [Code.keyword .err, Code.op "!=", Code.keyword .nil]],
     Code.group .block [Code.stmt [Code.group .ret [Code.stmt [Code.keyword .err]]]]]

/-- The function `genReturnWithError`. -/
def genReturnWithError (hasRetVal : Bool) (retId : String) : Statement :=
  if hasRetVal then
    [Code.group .ret [Code.stmt [Code.id retId, Code.op ",", Code.keyword .nil]]]
  else
    [Code.group .ret [Code.stmt Nil]]

/-! ## `gen/main.go` -/

/-- The variable `skippedEndpoints`. -/
def skippedEndpoints : List String :=
  ["duplications", "properties", "favourites", "paging"]

/-- The variable `skippedRequestFields`. -/
def skippedRequestFields : List String := []

/-- The constant `packageName`. -/
def packageName : String := "sonarqube"

/-! ## `gen/action.go` -/

/-- The method `Param.render`: the struct field of a request parameter. -/
def Param.render (w : World) (p : Param) (post : Bool) : Statement :=
  let tag := if post then "form" else "url"
  let key := if !p.Required then p.Key ++ ",omitempty" else p.Key
  let comment1 := if p.Since ≠ "" then "Since " ++ p.Since ++ ";" else ""
  let comment2 :=
    if p.DeprecatedSince ≠ "" then comment1 ++ "Deprecated since " ++ p.DeprecatedSince ++ ";"
    else comment1
  let comment3 := if p.Description ≠ "" then comment2 ++ p.Description else comment2
  renderId w p.Key ++ [Code.keyword .string, Code.tag tag key, Code.comment comment3]

/-- The method `Action.id`. -/
def Action.id (w : World) (a : Action) : String :=
  w.toCamel a.Key

/-- The method `Action.requestTypeName`. -/
def Action.requestTypeName (w : World) (a : Action) : String :=
  a.id w ++ "Request"

/-- The method `Action.responseTypeName`. -/
def Action.responseTypeName (w : World) (a : Action) : String :=
  a.id w ++ "Response"

/-- The method `Action.responseAllTypeName`. -/
def Action.responseAllTypeName (w : World) (a : Action) : String :=
  a.id w ++ "ResponseAll"

/-- The method `Action.pagingFuncName`. -/
def Action.pagingFuncName (_a : Action) : String :=
  "GetPaging"

/-- The method `Action.serviceFuncName`. -/
def Action.serviceFuncName (w : World) (a : Action) : String :=
  a.id w

/-- The method `Action.serviceAllFuncName`. -/
def Action.serviceAllFuncName (w : World) (a : Action) : String :=
  a.id w ++ "All"

/-- The function `errResult`. -/
def errResult (action : Action) (errStmt : Statement) : Statement :=
  if action.HasResponseExample then
    [Code.group .ret [Code.stmt [Code.keyword .nil, Code.op ",", Code.stmt errStmt]]]
  else
    [Code.group .ret [Code.stmt errStmt]]

/-- The function `ifError`. -/
def ifError (action : Action) (s : String) : Statement :=
  [Code.group .ifStmt [Code.stmt [Code.keyword .err, Code.op "!=", Code.keyword .nil]],
   Code.group .block [Code.stmt (errResult action
     [Code.qual "fmt" "Errorf",
      Code.group .call [Code.stmt [Code.lit s], Code.stmt [Code.keyword .err]]])]]

/-- One iteration of the loop of `hasPaging`: the `switch` on `param.Key`
updates the pair `(hasP, hasPs)`. -/
def hasPagingStep (flags : Bool × Bool) (param : Param) : Bool × Bool :=
  if param.Key = "p" then (true, flags.2)
  else if param.Key = "ps" then (flags.1, true)
  else flags

/-- The method `Action.hasPaging`. -/
def Action.hasPaging (a : Action) : Bool :=
  let flags := a.Params.foldl hasPagingStep (false, false)
  flags.1 && flags.2

/-- The dynamic type of a decoded value as the Go runtime prints it in the
message of a failed type assertion. -/
def JSON.goTypeName : JSON → String
  | .null => "nil"
  | .bool _ => "bool"
  | .num _ => "float64"
  | .str _ => "string"
  | .arr _ => "[]interface \x7b\x7d"
  | .obj _ => "map[string]interface \x7b\x7d"

/-- The one-value type assertion `v.(map[string]interface{})`: the map, or the
panic of the Go runtime when `v` holds anything else. -/
def JSON.assertMap (v : JSON) : Outcome GoMap :=
  match v with
  | .obj m => .returned m
  | other => .panicked ("interface conversion: interface \x7b\x7d is " ++ other.goTypeName
      ++ ", not map[string]interface \x7b\x7d")

/-- The method `ResponseFieldsGenerator.generate`.  A `[]interface{}` goes to
`NewSliceField`; anything else is asserted to be a map (the one-value type
assertion panics on a string, number, boolean or nil), a map with a `"format"`
key yields a `StringField`, any other map goes to `NewMapField`.  The error
result is `nil` on every returning path. -/
def ResponseFieldsGenerator.generate (parser : FieldParser) (responseTypeName : String)
    (ex : JSON) : Outcome (Field × Option String) :=
  match ex with
  | .arr items =>
    (parser.NewSliceField responseTypeName items).andThen fun f => .returned (f, none)
  | other =>
    other.assertMap.andThen fun m =>
      if (GoMap.get m "format").isSome then
        .returned (.StringField responseTypeName, none)
      else
        (parser.NewMapField responseTypeName m).andThen fun f => .returned (f, none)

/-- The four `delete` statements that open `generatedWithoutPaging`, in order:
`"paging"`, then the flattened `"p"`, `"ps"` and `"total"`. -/
def deletePagingKeys (ex : GoMap) : GoMap :=
  GoMap.delete (GoMap.delete (GoMap.delete (GoMap.delete ex "paging") "p") "ps") "total"

/-- The method `ResponseFieldsGenerator.generatedWithoutPaging`.  A Go map is a
reference, so the four `delete`s act on the caller's map: the first component
is that map after the call, the second what the call returns, namely the field
`NewMapField` builds from the same map and a `nil` error. -/
def ResponseFieldsGenerator.generatedWithoutPaging (parser : FieldParser)
    (responseAllTypeName : String) (ex : GoMap) :
    GoMap × Outcome (Field × Option String) :=
  let remaining := deletePagingKeys ex
  (remaining, (parser.NewMapField responseAllTypeName remaining).andThen fun f =>
    .returned (f, none))

/-- The slot of one parameter in the field list of the request struct: left
nil when the key is among `skippedRequestFields`, `"p"` and `"ps"`, the
rendered parameter otherwise. -/
def requestField (w : World) (post : Bool) (param : Param) : Code :=
  if contains param.Key (skippedRequestFields ++ ["p", "ps"]) then Code.nilCode
  else Code.stmt (param.render w post)

/-- The method `RequestStructGenerator.generate`. -/
def RequestStructGenerator.generate (w : World) (action : Action) : Statement :=
  let fields := action.Params.map (requestField w action.Post)
  let statement := [Code.comment (action.requestTypeName w ++ " " ++ action.Description)]
  let statement :=
    if action.DeprecatedSince ≠ "" then
      statement ++ [Code.line, Code.comment
        ("Deprecated: this action has been deprecated since version " ++ action.DeprecatedSince)]
    else statement
  statement ++ [Code.line, Code.keyword .type, Code.id (action.requestTypeName w),
    Code.group .struct fields]

/-- The method `Action.responseStruct`. -/
def Action.responseStruct (w : World) (a : Action) (response : Field) : Statement :=
  if !response.isEmptyField then
    [Code.comment (a.responseTypeName w ++ " is the response for " ++ a.requestTypeName w),
     Code.line, Code.keyword .type, w.render response false]
  else Empty

/-- The result of `Accessors()` on a `*MapField`. -/
def Field.Accessors : Field → List String
  | .MapField _ accessors _ => accessors
  | _ => []

/-- The body `Return(Op("&").Id("r").Dot("Paging"))` of the generated paging
function: the response's own `Paging` child. -/
def returnOwnPaging : Code :=
  Code.group .block
    [Code.stmt [Code.group .ret [Code.stmt [Code.op "&", Code.id "r", Code.dot "Paging"]]]]

/-- The body of the generated paging function in the other branch: a
`paging.Paging` literal over a `Dict` that is empty, its three entries
(`PageIndex`, `PageSize`, `Total`) being commented out in the source. -/
def returnPagingLiteral : Code :=
  Code.group .block
    [Code.stmt [Code.group .ret [Code.stmt [Code.op "&", Code.qual (qualifier "paging") "Paging",
      Code.group .block [Code.group .dict []]]]]]

/-- The body the paging function would have with the three `Dict` entries that
the source keeps as comments (lines 207 to 209): `PageIndex`, `PageSize` and
`Total` set from `r.P`, `r.Ps` and `r.Total`.  No path of the generator emits it. -/
def returnSynthesizedPaging : Code :=
  Code.group .block
    [Code.stmt [Code.group .ret [Code.stmt [Code.op "&", Code.qual (qualifier "paging") "Paging",
      Code.group .block [Code.group .dict
        [Code.group .entry [Code.stmt [Code.id "PageIndex"],
           Code.stmt [Code.keyword .int, Code.group .parens [Code.stmt [Code.id "r", Code.dot "P"]]]],
         Code.group .entry [Code.stmt [Code.id "PageSize"],
           Code.stmt [Code.keyword .int, Code.group .parens [Code.stmt [Code.id "r", Code.dot "Ps"]]]],
         Code.group .entry [Code.stmt [Code.id "Total"],
           Code.stmt [Code.keyword .int,
             Code.group .parens [Code.stmt [Code.id "r", Code.dot "Total"]]]]]]]]]]

/-- The method `Action.responseStructPagingFunc`: `Empty()` unless the field is
a `*MapField`; otherwise the signature of the paging function followed by one of
the two bodies, chosen by `contains("Paging", Accessors())`. -/
def Action.responseStructPagingFunc (w : World) (a : Action) (collection : Field) : Statement :=
  if collection.isMapField then
    let statement : Statement :=
      [Code.comment (a.pagingFuncName ++ " extracts the paging from " ++ a.responseTypeName w),
       Code.line, Code.keyword .func,
       Code.group .parens [Code.stmt [Code.id "r", Code.op "*", Code.id (a.responseTypeName w)]],
       Code.id a.pagingFuncName, Code.group .call [], Code.op "*",
       Code.qual (qualifier "paging") "Paging"]
    if contains "Paging" collection.Accessors then statement ++ [returnOwnPaging]
    else statement ++ [returnPagingLiteral]
  else Empty

/-- The method `Action.responseAllStruct`. -/
def Action.responseAllStruct (w : World) (a : Action) (collection : Field) : Statement :=
  if !collection.isEmptyField then
    [Code.comment (a.responseAllTypeName w ++ " is the collection for " ++ a.requestTypeName w),
     Code.line, Code.keyword .type, w.render collection false]
  else Empty

/-- The function `checkJSONType`: `nil` for an empty body, an empty slice when
the first byte is `[`, an empty map otherwise. -/
def checkJSONType (body : String) : JSON :=
  match body.data with
  | [] => .null
  | c :: _ => if c = '[' then .arr [] else .obj []

/-- The tail of `Action.fetchExample`, from the decoded envelope on: the
branches on `responseExample.Format`.  `json.Unmarshal` into the `interface{}`
variable stores the generic decoding of the text, whatever `checkJSONType` had
put there. -/
def decodeExample (w : World) (responseExample : Example) : JSON × Option String :=
  if responseExample.Format = "json" then
    match checkJSONType responseExample.Example with
    | .null => (.null, some "无法确定JSON类型：空输入")
    | _ =>
      match w.unmarshal responseExample.Example with
      | .error err => (.null, some ("could not marshall example: " ++ err))
      | .ok v => (v, none)
  else if responseExample.Format = "txt" ∨ responseExample.Format = "xml"
      ∨ responseExample.Format = "svg" ∨ responseExample.Format = "log"
      ∨ responseExample.Format = "proto" then
    (.obj [("example", .str responseExample.Example), ("format", .str responseExample.Format)],
      none)
  else
    (.null, some ("unsupported response format " ++ responseExample.Format))

/-- The method `Action.fetchExample`.  `newRequest` builds a GET request for a
constant URL and cannot fail; the request is identified by its action and
controller. -/
def Action.fetchExample (w : World) (a : Action) (endpoint : String) : JSON × Option String :=
  let controller := "api/" ++ endpoint
  let request : ResponseExampleRequest :=
    ⟨a.responseTypeName w, a.id w, a.Key, controller⟩
  match w.clientDo request with
  | .error err => (.null, some ("error sending reqeust: " ++ err))
  | .ok res =>
    match res with
    | .error err => (.null, some ("could not read response body: " ++ err))
    | .ok body =>
      match w.unmarshalExample body with
      | .error err => (.null, some ("could not unmarshall body: " ++ err))
      | .ok responseExample => decodeExample w responseExample

/-! ## `gen/service.go` -/

/-- The call `strings.Split(s, "/")` on the characters of `s`: at least one
segment, also for the empty string. -/
def splitOnSlash : List Char → List (List Char)
  | [] => [[]]
  | c :: rest =>
    if c = '/' then [] :: splitOnSlash rest
    else
      match splitOnSlash rest with
      | [] => [[c]]
      | seg :: segs => (c :: seg) :: segs

/-- The method `Service.endpoint`: the last segment of the path. -/
def Service.endpoint (s : Service) : String :=
  String.mk ((splitOnSlash s.Path.data).getLast?.getD [])

/-- The method `Service.Getter`. -/
def Service.Getter (w : World) (s : Service) : String :=
  w.toCamel s.endpoint

/-- The comment that opens `postServiceFunc` and `getServiceFunc`. -/
def serviceFuncComment (w : World) (action : Action) : String :=
  let comment := "// " ++ action.serviceFuncName w ++ " - " ++ w.replaceTags action.Description
  let comment := if action.Since ≠ "" then comment ++ "\n// Since " ++ action.Since else comment
  let comment :=
    if action.DeprecatedSince ≠ "" then comment ++ "\n// Deprecated since " ++ action.DeprecatedSince
    else comment
  if action.ChangeLog.length > 0 then
    action.ChangeLog.foldl
      (fun c change => c ++ "\n//\t" ++ change.1 ++ ": " ++ w.replaceTags change.2)
      (comment ++ "\n// Changelog:\n//")
  else comment

/-- The return type both service functions declare: with or without a response. -/
def serviceFuncResult (w : World) (action : Action) (endpoint : String) : Code :=
  if action.HasResponseExample then
    Code.group .parens [Code.stmt [Code.op "*",
      Code.qual (qualifier endpoint) (action.responseTypeName w), Code.op ",", Code.op "*",
      Code.qual "net/http" "Response", Code.op ",", Code.keyword .error]]
  else
    Code.group .parens [Code.stmt [Code.op "*", Code.qual "net/http" "Response", Code.op ",",
      Code.keyword .error]]

/-- The method `Service.postServiceFunc`. -/
def Service.postServiceFunc (w : World) (s : Service) (action : Action) (endpoint : String) :
    Statement :=
  [Code.comment (serviceFuncComment w action), Code.line,
   Code.keyword .func,
   Code.group .parens [Code.stmt [Code.id "s", Code.op "*", Code.id (s.Getter w)]],
   Code.id (action.serviceFuncName w),
   Code.group .params
     [Code.stmt [Code.id "ctx", Code.qual "context" "Context"],
      Code.stmt [Code.id "r", Code.qual (qualifier endpoint) (action.requestTypeName w)]],
   serviceFuncResult w action endpoint,
   Code.group .block
     [Code.stmt [Code.id "u", Code.op ":=", Code.qual "fmt" "Sprintf",
        Code.group .call [Code.stmt [Code.lit ("%s/" ++ action.Key)],
          Code.stmt [Code.id "s", Code.dot "path"]]],
      Code.stmt (ifTrueGen action.HasResponseExample
        [Code.id "v", Code.op ":=",
         Code.group .new [Code.stmt [Code.qual (qualifier endpoint) (action.responseTypeName w)]]]),
      Code.stmt [Code.line],
      Code.stmt [Code.id "resp, err", Code.op ":=", Code.id "s", Code.dot "client",
        Code.dot "Call",
        Code.group .call
          [Code.stmt [Code.id "ctx"], Code.stmt [Code.lit "POST"], Code.stmt [Code.id "u"],
           Code.stmt (ifTrueGenOrNil action.HasResponseExample [Code.id "v"]),
           Code.stmt [Code.id "r"]]],
      Code.stmt (ifErrorReturn action.HasResponseExample),
      Code.stmt [Code.line],
      Code.stmt (genReturnWithError action.HasResponseExample "v")],
   Code.line]

/-- The method `Service.getServiceFunc`: as `postServiceFunc`, with a
`p paging.Params` parameter, passed on to the call, when the action has paging. -/
def Service.getServiceFunc (w : World) (s : Service) (action : Action) (endpoint : String) :
    Statement :=
  [Code.comment (serviceFuncComment w action), Code.line,
   Code.keyword .func,
   Code.group .parens [Code.stmt [Code.id "s", Code.op "*", Code.id (s.Getter w)]],
   Code.id (action.serviceFuncName w),
   Code.group .params
     [Code.stmt [Code.id "ctx", Code.qual "context" "Context"],
      Code.stmt [Code.id "r", Code.qual (qualifier endpoint) (action.requestTypeName w)],
      Code.stmt (ifTrueGen action.hasPaging
        [Code.id "p", Code.qual (qualifier "paging") "Params"])],
   serviceFuncResult w action endpoint,
   Code.group .block
     [Code.stmt [Code.id "u", Code.op ":=", Code.qual "fmt" "Sprintf",
        Code.group .call [Code.stmt [Code.lit ("%s/" ++ action.Key)],
          Code.stmt [Code.id "s", Code.dot "path"]]],
      Code.stmt (ifTrueGen action.HasResponseExample
        [Code.id "v", Code.op ":=",
         Code.group .new [Code.stmt [Code.qual (qualifier endpoint) (action.responseTypeName w)]]]),
      Code.stmt [Code.line],
      Code.stmt [Code.id "resp, err", Code.op ":=", Code.id "s", Code.dot "client",
        Code.dot "Call",
        Code.group .call
          [Code.stmt [Code.id "ctx"], Code.stmt [Code.lit "GET"], Code.stmt [Code.id "u"],
           Code.stmt (ifTrueGenOrNil action.HasResponseExample [Code.id "v"]),
           Code.stmt [Code.id "r"],
           Code.stmt (ifTrueGen action.hasPaging [Code.id "p"])]],
      Code.stmt (ifErrorReturn action.HasResponseExample),
      Code.stmt [Code.line],
      Code.stmt (genReturnWithError action.HasResponseExample "v")],
   Code.line]

/-- The loop of `getAllServiceFunc` that fills `updateStatements`: slot `i` gets
an `append` statement when `mapField.fields[i]` is a `*SliceField` and stays nil
otherwise; indexing `fields` past its end panics. -/
def updateStatements : List String → List Field → Outcome (List Code)
  | [], _ => .returned []
  | _ :: _, [] => .panicked "runtime error: index out of range"
  | accessor :: accessors, field :: fields =>
    let slot :=
      if field.isSliceField then
        Code.stmt [Code.id "response", Code.dot accessor, Code.op "=", Code.id "append",
          Code.group .call
            [Code.stmt [Code.id "response", Code.dot accessor],
             Code.stmt [Code.id "res", Code.dot accessor, Code.op "..."]]]
      else Code.nilCode
    (updateStatements accessors fields).andThen fun slots => .returned (slot :: slots)

/-- The fields of a `*MapField`. -/
def Field.fields : Field → List Field
  | .MapField _ _ fields => fields
  | _ => []

/-- The method `Service.getAllServiceFunc`: `Empty()` for a field that is not a
`*MapField`, the paging loop over the service function otherwise. -/
def Service.getAllServiceFunc (w : World) (s : Service) (action : Action) (endpoint : String)
    (field : Field) : Outcome Statement :=
  if !field.isMapField then .returned Empty
  else
    (updateStatements field.Accessors field.fields).andThen fun updates =>
      let funcBody : List Code :=
        [Code.stmt [Code.id "p", Code.op ":=", Code.qual (qualifier "paging") "Params",
           Code.group .values [Code.group .dict
             [Code.group .entry [Code.stmt [Code.id "P"], Code.stmt [Code.litInt 1]],
              Code.group .entry [Code.stmt [Code.id "Ps"], Code.stmt [Code.litInt 100]]]]],
         Code.stmt [Code.id "response", Code.op ":=", Code.op "&",
           Code.qual (qualifier endpoint) (action.responseAllTypeName w), Code.group .block []]]
      let loopBody : List Code :=
        [Code.stmt [Code.id "res", Code.op ",", Code.id "_", Code.op ",", Code.keyword .err,
           Code.op ":=", Code.id "s", Code.dot (action.serviceFuncName w),
           Code.group .call [Code.stmt [Code.id "ctx"], Code.stmt [Code.id "r"],
             Code.stmt [Code.id "p"]]],
         Code.stmt (ifError action
           ("error during call to " ++ endpoint ++ "." ++ action.serviceFuncName w ++ ": %+v"))]
        ++ updates ++
        [Code.stmt [Code.group .ifStmt [Code.stmt [Code.id "res", Code.dot action.pagingFuncName,
             Code.group .call [], Code.dot "End", Code.group .call []]],
           Code.group .block [Code.stmt [Code.keyword .break]]],
         Code.stmt [Code.id "p", Code.dot "P", Code.op "++"]]
      let funcBody := funcBody ++
        [Code.stmt [Code.group .forStmt [Code.nilCode], Code.group .block loopBody],
         Code.stmt [Code.group .ret [Code.stmt [Code.id "response"], Code.stmt Nil]]]
      .returned
        [Code.keyword .func,
         Code.group .parens [Code.stmt [Code.id "s", Code.op "*", Code.id (s.Getter w)]],
         Code.id (action.serviceAllFuncName w),
         Code.group .params
           [Code.stmt [Code.id "ctx", Code.qual "context" "Context"],
            Code.stmt [Code.id "r", Code.qual (qualifier endpoint) (action.requestTypeName w)]],
         Code.group .parens [Code.stmt [Code.op "*",
           Code.qual (qualifier endpoint) (action.responseAllTypeName w), Code.op ",",
           Code.keyword .error]],
         Code.group .block funcBody,
         Code.line]

/-- The two files `Service.process` builds while it loops over the actions. -/
structure Files where
  typesFile : File
  serviceFile : File

/-- The call `file.Add(statement)`. -/
def File.add (f : File) (statement : Statement) : File :=
  { f with items := f.items ++ [statement] }

/-- The response part of one loop iteration of `Service.process`, for an action
with a response example: the example is fetched (an error ends `process`), the
primary field is generated from it, and for a paging action the example is
asserted to be a map and handed to `generatedWithoutPaging`.  The result is the
error to return from `process`, or the pair `responseField`,
`responseFieldWithoutPaging`. -/
def Service.responseFields (w : World) (s : Service) (endpoint : String) (action : Action) :
    Outcome (Except String (Field × Field)) :=
  match action.fetchExample w endpoint with
  | (_, some err) => .returned (.error ("could not fetch example: " ++ err))
  | (ex, none) =>
    let parser := w.newFieldParser s action
    (ResponseFieldsGenerator.generate parser (action.responseTypeName w) ex).andThen fun r =>
      match r with
      | (_, some err) => .returned (.error ("could not collect response fields: " ++ err))
      | (responseField, none) =>
        if action.hasPaging then
          ex.assertMap.andThen fun m =>
            (ResponseFieldsGenerator.generatedWithoutPaging parser
                (action.responseAllTypeName w) m).2.andThen fun r2 =>
              match r2 with
              | (_, some err) =>
                .returned (.error ("could not extract collection field: " ++ err))
              | (responseFieldWithoutPaging, none) =>
                .returned (.ok (responseField, responseFieldWithoutPaging))
        else .returned (.ok (responseField, Field.EmptyField))

/-- One iteration of the loop of `Service.process` over `s.Actions`: the files
after the action, or the error `process` returns at once. -/
def Service.processAction (w : World) (s : Service) (endpoint : String) (files : Files)
    (action : Action) : Outcome (Except String Files) :=
  if s.Path = "api/sources" ∧ action.Key = "index" then .returned (.ok files)
  else
    let typesFile := files.typesFile.add (RequestStructGenerator.generate w action)
    let fields : Outcome (Except String (Field × Field)) :=
      if action.HasResponseExample then s.responseFields w endpoint action
      else .returned (.ok (Field.EmptyField, Field.EmptyField))
    fields.andThen fun r =>
      match r with
      | .error err => .returned (.error err)
      | .ok (responseField, responseFieldWithoutPaging) =>
        let typesFile := typesFile.add (action.responseStruct w responseField)
        let typesFile :=
          if action.hasPaging then typesFile.add (action.responseStructPagingFunc w responseField)
          else typesFile
        let typesFile := typesFile.add (action.responseAllStruct w responseFieldWithoutPaging)
        let serviceFile :=
          if action.Post then files.serviceFile.add (s.postServiceFunc w action endpoint)
          else files.serviceFile.add (s.getServiceFunc w action endpoint)
        if action.hasPaging then
          (s.getAllServiceFunc w action endpoint responseFieldWithoutPaging).andThen fun all =>
            .returned (.ok ⟨typesFile, serviceFile.add all⟩)
        else .returned (.ok ⟨typesFile, serviceFile⟩)

/-- The loop `for _, action := range s.Actions` of `Service.process`: the first
error or panic ends it. -/
def Service.processActions (w : World) (s : Service) (endpoint : String) :
    Files → List Action → Outcome (Except String Files)
  | files, [] => .returned (.ok files)
  | files, action :: rest =>
    (s.processAction w endpoint files action).andThen fun r =>
      match r with
      | .error err => .returned (.error err)
      | .ok files1 => Service.processActions w s endpoint files1 rest

/-- The files as `Service.process` sets them up before the loop. -/
def Service.initialFiles (w : World) (s : Service) (endpoint : String) : Files :=
  let header := [Code.comment "// AUTOMATICALLY GENERATED, DO NOT EDIT BY HAND!\n"]
  { typesFile := ⟨endpoint, [], [header]⟩,
    serviceFile :=
      ⟨packageName, [(qualifier endpoint, endpoint), (qualifier "paging", "paging")],
        [header, [Code.keyword .type, Code.id (s.Getter w), Code.id "service"]]⟩ }

/-- The method `Service.process`.  The result is the list of the files saved,
each with its file name, and the error returned.  Standard output and the
directory creation, whose error the source discards, are not modelled. -/
def Service.process (w : World) (s : Service) (output : String) :
    Outcome (List (String × File) × Option String) :=
  let endpoint := s.endpoint
  if contains endpoint skippedEndpoints then .returned ([], none)
  else
    (s.processActions w endpoint (s.initialFiles w endpoint) s.Actions).andThen fun r =>
      match r with
      | .error err => .returned ([], some err)
      | .ok files =>
        let typesFileName := output ++ "/" ++ endpoint ++ "/" ++ endpoint ++ "_gen.go"
        match w.save typesFileName files.typesFile with
        | some err =>
          .returned ([], some ("could not save generated source file for types: " ++ err ++ "\n"))
        | none =>
          let serviceFileName := output ++ "/" ++ endpoint ++ "_gen.go"
          match w.save serviceFileName files.serviceFile with
          | some err =>
            .returned ([(typesFileName, files.typesFile)],
              some ("could not save generated source file for service: " ++ err ++ "\n"))
          | none =>
            .returned ([(typesFileName, files.typesFile), (serviceFileName, files.serviceFile)],
              none)

/-! ## Concrete inputs

Fixtures for the closed statements below.  `sampleParser` and `sampleWorld`
stand for no code of the repository: they are one possible behaviour of the
absent parser and of the server, fixed so that the definitions can be run. -/

/-- The four keys `generatedWithoutPaging` deletes. -/
def pagingKeys : List String := ["paging", "p", "ps", "total"]

/-- A parser whose two constructors panic on every input. -/
def panickingParser : FieldParser :=
  { NewSliceField := fun _ _ => .panicked "NewSliceField",
    NewMapField := fun _ _ => .panicked "NewMapField" }

/-- A parser that always returns: a slice field for an array, and for a map a
map field whose accessors are the keys it was handed. -/
def sampleParser : FieldParser :=
  { NewSliceField := fun name _ => .returned (.SliceField name (.other "interface" name)),
    NewMapField := fun name m =>
      .returned (.MapField name (GoMap.keys m) (m.map fun kv => .other "interface" kv.1)) }

/-- The escape-hatch example: a text response wrapped by `fetchExample`. -/
def formatExample : GoMap :=
  [("format", .str "txt"), ("example", .str "hello world")]

/-- The paging example: flattened paging keys, a nested `paging` object and one
collection. -/
def pagingExample : GoMap :=
  [("total", .num 3), ("p", .num 1), ("ps", .num 50),
   ("paging", .obj [("pageIndex", .num 1), ("pageSize", .num 50), ("total", .num 3)]),
   ("components", .arr [.obj [("key", .str "a")], .obj [("key", .str "b")]])]

/-- The array `[1, {"a": 1}]`: one scalar element and one object element. -/
def mixedArray : JSON :=
  .arr [.num 1, .obj [("a", .num 1)]]

/-- A server for the concrete instances: action `unreachable` cannot be reached,
`search` has the JSON example `[]`, `version` a text example, `export` an example
in a format the generator does not know, and every other action the JSON example
of an empty object.  Names are left as they are and every save succeeds. -/
def sampleWorld : World :=
  { toCamel := fun name => name,
    replaceTags := fun text => text,
    render := fun _ _ => Code.empty,
    newFieldParser := fun _ _ => sampleParser,
    clientDo := fun request =>
      if request.Action = "unreachable" then .error "connection refused"
      else .ok (.ok request.Action),
    unmarshalExample := fun body =>
      if body = "search" then .ok ⟨"json", "[]"⟩
      else if body = "version" then .ok ⟨"txt", "hello world"⟩
      else if body = "export" then .ok ⟨"pdf", "%PDF"⟩
      else .ok ⟨"json", "\x7b\x7d"⟩,
    unmarshal := fun text =>
      if text = "[]" then .ok (.arr [])
      else if text = "\x7b\x7d" then .ok (.obj [])
      else .error "unexpected end of JSON input",
    save := fun _ _ => none }

/-- A request parameter with the given key and nothing else set. -/
def sampleParam (key : String) : Param :=
  ⟨key, "", false, false, "", ""⟩

/-- A GET action with a response example, the given key and the given
parameter keys. -/
def sampleAction (key : String) (params : List String) : Action :=
  ⟨key, "", false, false, true, params.map sampleParam, [], "", ""⟩

/-- A service whose one action, `search`, declares "p" and "ps" and has an array
as its example. -/
def pagedArrayService : Service :=
  ⟨"api/issues", "", [sampleAction "search" ["p", "ps"]]⟩

/-- A service with two actions: the example of the first cannot be fetched, the
second is a plain text action. -/
def twoActionService : Service :=
  ⟨"api/server", "", [sampleAction "unreachable" [], sampleAction "version" []]⟩

/-- The service `twoActionService` without its first action. -/
def oneActionService : Service :=
  ⟨"api/server", "", [sampleAction "version" []]⟩

/-- The paging example with its entries in the reverse order: the same object
under another enumeration of its keys. -/
def scrambledPagingExample : GoMap :=
  pagingExample.reverse

/-- A GET action that declares a page size but no page index: parameters "q"
and "ps". -/
def pageSizeOnlyAction : Action :=
  sampleAction "tags" ["q", "ps"]

/-! ## Theorems -/

theorem GoMap.get_isSome_iff (m : GoMap) (key : String) :
    (GoMap.get m key).isSome = true ↔ key ∈ GoMap.keys m := by
  induction m with
  | nil => simp [GoMap.get, GoMap.keys]
  | cons kv rest ih =>
    obtain ⟨k, v⟩ := kv
    by_cases hk : k = key
    · simp [GoMap.get, GoMap.keys, hk]
    · have hk2 : ¬ key = k := fun h => hk h.symm
      simpa [GoMap.get, GoMap.keys, hk, hk2] using ih

theorem GoMap.get_filter (m : GoMap) (keep : String → Bool) (key : String) :
    GoMap.get (m.filter fun kv => keep kv.1) key =
      if keep key = true then GoMap.get m key else none := by
  induction m with
  | nil => simp [GoMap.get]
  | cons kv rest ih =>
    obtain ⟨k, v⟩ := kv
    by_cases hkeep : keep k = true
    · rw [List.filter_cons_of_pos (by simpa using hkeep)]
      by_cases hk : k = key
      · subst hk
        simp [GoMap.get, hkeep]
      · simp only [GoMap.get, hk, if_false]
        exact ih
    · rw [List.filter_cons_of_neg (by simpa using hkeep)]
      by_cases hk : k = key
      · subst hk
        rw [ih]
        simp [hkeep]
      · simp only [GoMap.get, hk, if_false]
        exact ih

theorem deletePagingKeys_eq_filter (ex : GoMap) :
    deletePagingKeys ex = ex.filter fun kv => !(pagingKeys.contains kv.1) := by
  unfold deletePagingKeys GoMap.delete pagingKeys
  simp only [List.filter_filter]
  congr 1
  funext kv
  by_cases h1 : kv.1 = "paging"
  · simp [h1]
  · by_cases h2 : kv.1 = "p"
    · simp [h2]
    · by_cases h3 : kv.1 = "ps"
      · simp [h3]
      · by_cases h4 : kv.1 = "total"
        · simp [h4]
        · simp [h1, h2, h3, h4]

theorem contains_iff_mem (needle : String) (haystack : List String) :
    contains needle haystack = true ↔ needle ∈ haystack := by
  induction haystack with
  | nil => simp [contains]
  | cons hay rest ih =>
    by_cases h : hay = needle
    · simp [contains, h]
    · have h2 : ¬ needle = hay := fun e => h e.symm
      simpa [contains, h, h2] using ih

theorem hasPagingStep_foldl (ps : List Param) (flags : Bool × Bool) :
    ps.foldl hasPagingStep flags =
      (flags.1 || ps.any (fun q => decide (q.Key = "p")),
       flags.2 || ps.any (fun q => decide (q.Key = "ps"))) := by
  induction ps generalizing flags with
  | nil => simp
  | cons q rest ih =>
    rw [List.foldl_cons, ih]
    unfold hasPagingStep
    by_cases hp : q.Key = "p"
    · have hps : q.Key ≠ "ps" := by rw [hp]; decide
      simp [hp]
    · by_cases hps : q.Key = "ps"
      · simp [hps]
      · simp [hp, hps]

/-- C1: for every response type name and every example object with a key named
"format", whatever its value and its other keys, `generate` returns the string
field of that name and a nil error; the parser is not consulted, so the result
is the same with a parser that panics on every call. -/
theorem generate_format_key_yields_string_field (parser : FieldParser)
    (responseTypeName : String) (m : GoMap) (h : "format" ∈ GoMap.keys m) :
    ResponseFieldsGenerator.generate parser responseTypeName (.obj m) =
        .returned (.StringField responseTypeName, none) ∧
      ResponseFieldsGenerator.generate panickingParser responseTypeName (.obj m) =
        .returned (.StringField responseTypeName, none) := by
  have hs : (GoMap.get m "format").isSome = true := (GoMap.get_isSome_iff m "format").2 h
  simp [ResponseFieldsGenerator.generate, JSON.assertMap, Outcome.andThen, hs]

/-- The instance of C1 at the example of the specification,
`{"format":"txt","example":"hello world"}`. -/
theorem generate_format_key_witness :
    "format" ∈ GoMap.keys formatExample ∧
      ResponseFieldsGenerator.generate sampleParser "VersionResponse" (.obj formatExample) =
        .returned (.StringField "VersionResponse", none) :=
  ⟨by decide,
    (generate_format_key_yields_string_field sampleParser "VersionResponse" formatExample
      (by decide)).1⟩

/-- C2: `hasPaging` is true exactly when some parameter has key "p" and some
parameter has key "ps". -/
theorem hasPaging_iff (a : Action) :
    a.hasPaging = true ↔
      (∃ q ∈ a.Params, q.Key = "p") ∧ (∃ q ∈ a.Params, q.Key = "ps") := by
  unfold Action.hasPaging
  rw [hasPagingStep_foldl]
  simp

theorem deletePagingKeys_get (ex : GoMap) (key : String) :
    GoMap.get (deletePagingKeys ex) key =
      if key ∈ pagingKeys then none else GoMap.get ex key := by
  rw [deletePagingKeys_eq_filter, GoMap.get_filter ex (fun k => !(pagingKeys.contains k)) key]
  by_cases h : key ∈ pagingKeys
  · simp [h]
  · simp [h]

theorem deletePagingKeys_keys (ex : GoMap) :
    GoMap.keys (deletePagingKeys ex) =
      (GoMap.keys ex).filter fun k => decide (k ∉ pagingKeys) := by
  rw [deletePagingKeys_eq_filter]
  unfold GoMap.keys
  rw [List.filter_map]
  congr 1
  apply List.filter_congr
  intro kv _
  simp

theorem deletePagingKeys_eq_self_iff (ex : GoMap) :
    deletePagingKeys ex = ex ↔ ∀ k ∈ pagingKeys, k ∉ GoMap.keys ex := by
  rw [deletePagingKeys_eq_filter, List.filter_eq_self]
  unfold GoMap.keys
  constructor
  · intro h k hk hmem
    obtain ⟨kv, hkv, rfl⟩ := List.mem_map.1 hmem
    have := h kv hkv
    simp [hk] at this
  · intro h kv hkv
    have hnot : kv.1 ∉ pagingKeys := fun hk => h kv.1 hk (List.mem_map.2 ⟨kv, hkv, rfl⟩)
    simp [hnot]

/-- C3: for every example object, what `generatedWithoutPaging` returns is what
the map-field parser makes of the object stripped of "paging", "p", "ps" and
"total" (with a nil error).  That object has exactly the other keys of the
input, in their order and each with its original value, and it is the input
itself when none of the four keys is present: the deletions never fail. -/
theorem generatedWithoutPaging_hands_other_keys (parser : FieldParser)
    (responseAllTypeName : String) (ex : GoMap) :
    (ResponseFieldsGenerator.generatedWithoutPaging parser responseAllTypeName ex).2 =
        (parser.NewMapField responseAllTypeName (deletePagingKeys ex)).andThen
          (fun f => .returned (f, none)) ∧
      GoMap.keys (deletePagingKeys ex) =
        (GoMap.keys ex).filter (fun k => decide (k ∉ pagingKeys)) ∧
      (∀ key, GoMap.get (deletePagingKeys ex) key =
        if key ∈ pagingKeys then none else GoMap.get ex key) ∧
      ((∀ k ∈ pagingKeys, k ∉ GoMap.keys ex) → deletePagingKeys ex = ex) :=
  ⟨rfl, deletePagingKeys_keys ex, deletePagingKeys_get ex,
    (deletePagingKeys_eq_self_iff ex).2⟩

/-- The instance of C3 at the paging example of the specification: the parser
is handed an object whose only key is "components", with its two elements. -/
theorem generatedWithoutPaging_hands_other_keys_witness :
    (ResponseFieldsGenerator.generatedWithoutPaging sampleParser "SearchResponseAll"
        pagingExample).2 =
        (sampleParser.NewMapField "SearchResponseAll"
          [("components", .arr [.obj [("key", .str "a")], .obj [("key", .str "b")]])]).andThen
          (fun f => .returned (f, none)) ∧
      GoMap.keys (deletePagingKeys pagingExample) = ["components"] :=
  ⟨(generatedWithoutPaging_hands_other_keys sampleParser "SearchResponseAll" pagingExample).1,
    by decide⟩

/-- C4, as the code has it: `generatedWithoutPaging` deletes from the caller's
map.  After the call the object passed in has exactly its keys other than
"paging", "p", "ps" and "total", each with its original value, and holds none of
those four; it is unchanged exactly when none of the four was present. -/
theorem generatedWithoutPaging_deletes_in_place (parser : FieldParser)
    (responseAllTypeName : String) (ex : GoMap) :
    (∀ key, GoMap.get
        (ResponseFieldsGenerator.generatedWithoutPaging parser responseAllTypeName ex).1 key =
        if key ∈ pagingKeys then none else GoMap.get ex key) ∧
      ((ResponseFieldsGenerator.generatedWithoutPaging parser responseAllTypeName ex).1 = ex ↔
        ∀ k ∈ pagingKeys, k ∉ GoMap.keys ex) :=
  ⟨deletePagingKeys_get ex, deletePagingKeys_eq_self_iff ex⟩

/-- C4 fails on the paging example: the call returns, and the object passed in,
which had the keys "total", "p", "ps", "paging" and "components", is left with
"components" alone; its "paging" entry is gone. -/
theorem generatedWithoutPaging_mutates_paging_example :
    GoMap.keys pagingExample = ["total", "p", "ps", "paging", "components"] ∧
      (GoMap.get pagingExample "paging").isSome = true ∧
      (ResponseFieldsGenerator.generatedWithoutPaging sampleParser "SearchResponseAll"
        pagingExample).2 =
        .returned (.MapField "SearchResponseAll" ["components"] [.other "interface" "components"],
          none) ∧
      GoMap.keys (ResponseFieldsGenerator.generatedWithoutPaging sampleParser
        "SearchResponseAll" pagingExample).1 = ["components"] ∧
      GoMap.get (ResponseFieldsGenerator.generatedWithoutPaging sampleParser
        "SearchResponseAll" pagingExample).1 "paging" = none := by
  refine ⟨by decide, by decide, rfl, by decide, rfl⟩

theorem Outcome.andThen_nil_error_ne (o : Outcome Field) (f : Field) (err : String) :
    o.andThen (fun g => Outcome.returned (g, (none : Option String))) ≠
      .returned (f, some err) := by
  cases o with
  | returned g => simp [Outcome.andThen]
  | panicked msg => simp [Outcome.andThen]

/-- C5, as the code has it: for every array example, mixed or not, `generate`
passes the whole array to `NewSliceField` and adds nothing of its own.  When
`NewSliceField` returns a field, `generate` returns that field with a nil
error; when `NewSliceField` panics, `generate` panics with the same message; in
no case does `generate` return a non-nil error. -/
theorem generate_array_error_is_nil (parser : FieldParser) (responseTypeName : String)
    (items : List JSON) :
    (∀ f : Field, parser.NewSliceField responseTypeName items = .returned f →
        ResponseFieldsGenerator.generate parser responseTypeName (.arr items) =
          .returned (f, none)) ∧
      (∀ msg : String, parser.NewSliceField responseTypeName items = .panicked msg →
        ResponseFieldsGenerator.generate parser responseTypeName (.arr items) =
          .panicked msg) ∧
      (∀ (f : Field) (err : String),
        ResponseFieldsGenerator.generate parser responseTypeName (.arr items) ≠
          .returned (f, some err)) := by
  refine ⟨?_, ?_, fun f err => Outcome.andThen_nil_error_ne _ f err⟩
  · intro f h
    simp [ResponseFieldsGenerator.generate, h, Outcome.andThen]
  · intro msg h
    simp [ResponseFieldsGenerator.generate, h, Outcome.andThen]

/-- C5 fails on `[1, {"a": 1}]`: whatever the parser does with it, `generate`
does not return a non-nil error for this array.  A parser that returns a field
for it makes `generate` return that field with a nil error, and a parser that
panics on it makes `generate` panic. -/
theorem generate_mixed_array_no_error :
    (¬ ∃ (parser : FieldParser) (f : Field) (err : String),
        ResponseFieldsGenerator.generate parser "SearchResponse" mixedArray =
          .returned (f, some err)) ∧
      (∀ (parser : FieldParser) (f : Field),
        parser.NewSliceField "SearchResponse" [.num 1, .obj [("a", .num 1)]] = .returned f →
          ResponseFieldsGenerator.generate parser "SearchResponse" mixedArray =
            .returned (f, none)) ∧
      (∀ (parser : FieldParser) (msg : String),
        parser.NewSliceField "SearchResponse" [.num 1, .obj [("a", .num 1)]] = .panicked msg →
          ResponseFieldsGenerator.generate parser "SearchResponse" mixedArray =
            .panicked msg) := by
  refine ⟨?_, ?_, ?_⟩
  · rintro ⟨parser, f, err, h⟩
    exact Outcome.andThen_nil_error_ne _ f err h
  · intro parser f h
    simp [ResponseFieldsGenerator.generate, mixedArray, h, Outcome.andThen]
  · intro parser msg h
    simp [ResponseFieldsGenerator.generate, mixedArray, h, Outcome.andThen]

/-- C6 fails on the code: for a top-level string, number, boolean or null
example (`"hello"`, `42`, `true`, `null`) `generate` returns no field; the type
assertion to a map panics, whatever the parser. -/
theorem generate_scalar_panics (parser : FieldParser) (responseTypeName : String) :
    ResponseFieldsGenerator.generate parser responseTypeName (.str "hello") =
        .panicked "interface conversion: interface \x7b\x7d is string, not map[string]interface \x7b\x7d" ∧
      ResponseFieldsGenerator.generate parser responseTypeName (.num 42) =
        .panicked "interface conversion: interface \x7b\x7d is float64, not map[string]interface \x7b\x7d" ∧
      ResponseFieldsGenerator.generate parser responseTypeName (.bool true) =
        .panicked "interface conversion: interface \x7b\x7d is bool, not map[string]interface \x7b\x7d" ∧
      ResponseFieldsGenerator.generate parser responseTypeName .null =
        .panicked "interface conversion: interface \x7b\x7d is nil, not map[string]interface \x7b\x7d" := by
  refine ⟨?_, ?_, ?_, ?_⟩ <;>
    simp [ResponseFieldsGenerator.generate, JSON.assertMap, Outcome.andThen, JSON.goTypeName]

/-- C7 fails on the code.  For the paging action `search` of `pagedArrayService`,
whose example is the array `[]`, `generate` returns a slice field and
`Service.process` then panics on the type assertion of the example to a map,
before any paging function is generated.  The two emitters themselves do skip a
field that is not a map: each yields `Empty()`. -/
theorem process_paged_array_example_panics :
    (sampleAction "search" ["p", "ps"]).hasPaging = true ∧
      (sampleAction "search" ["p", "ps"]).fetchExample sampleWorld "issues" = (.arr [], none) ∧
      Service.process sampleWorld pagedArrayService "sonarqube" =
        .panicked "interface conversion: interface \x7b\x7d is []interface \x7b\x7d, not map[string]interface \x7b\x7d" ∧
      (∀ (w : World) (s : Service) (a : Action) (endpoint : String) (field : Field),
        field.isMapField = false →
          a.responseStructPagingFunc w field = Empty ∧
            s.getAllServiceFunc w a endpoint field = .returned Empty) := by
  refine ⟨by decide, by rfl, by rfl, ?_⟩
  intro w s a endpoint field h
  simp [Action.responseStructPagingFunc, Service.getAllServiceFunc, h]

theorem Service.processActions_append (w : World) (s : Service) (endpoint : String)
    (files : Files) (before after : List Action) :
    s.processActions w endpoint files (before ++ after) =
      (s.processActions w endpoint files before).andThen fun r =>
        match r with
        | .error err => .returned (.error err)
        | .ok files1 => s.processActions w endpoint files1 after := by
  induction before generalizing files with
  | nil => simp [Service.processActions, Outcome.andThen]
  | cons a rest ih =>
    simp only [List.cons_append, Service.processActions]
    cases hstep : s.processAction w endpoint files a with
    | panicked msg => simp [Outcome.andThen]
    | returned r =>
      cases r with
      | error err => simp [Outcome.andThen]
      | ok files1 => simpa [Outcome.andThen] using ih files1

theorem Service.processAction_fetch_error (w : World) (s : Service) (endpoint : String)
    (files : Files) (a : Action) (err : String)
    (hskip : ¬ (s.Path = "api/sources" ∧ a.Key = "index"))
    (hexample : a.HasResponseExample = true)
    (hfetch : (a.fetchExample w endpoint).2 = some err) :
    s.processAction w endpoint files a =
      .returned (.error ("could not fetch example: " ++ err)) := by
  have hpair : a.fetchExample w endpoint = ((a.fetchExample w endpoint).1, some err) := by
    rw [← hfetch]
  unfold Service.processAction
  rw [if_neg hskip]
  simp only [hexample, if_true, Service.responseFields]
  rw [hpair]
  simp [Outcome.andThen]

/-- C8, as the code has it: an error in one action ends the processing of its
service.  If the actions before `a` were processed without error and fetching
the example of `a` fails, `Service.process` returns that error at once, wrapped
as "could not fetch example: ...", and saves no file, whatever actions follow
`a`: none of them is processed. -/
theorem process_fetch_error_ends_service (w : World) (s : Service) (output : String)
    (before : List Action) (a : Action) (after : List Action) (files : Files) (err : String)
    (hactions : s.Actions = before ++ a :: after)
    (hendpoint : contains s.endpoint skippedEndpoints = false)
    (hbefore : s.processActions w s.endpoint (s.initialFiles w s.endpoint) before =
      .returned (.ok files))
    (hskip : ¬ (s.Path = "api/sources" ∧ a.Key = "index"))
    (hexample : a.HasResponseExample = true)
    (hfetch : (a.fetchExample w s.endpoint).2 = some err) :
    s.process w output = .returned ([], some ("could not fetch example: " ++ err)) := by
  unfold Service.process
  simp only [hendpoint, Bool.false_eq_true, if_false, hactions]
  rw [Service.processActions_append, hbefore]
  simp only [Outcome.andThen, Service.processActions]
  rw [Service.processAction_fetch_error w s s.endpoint files a err hskip hexample hfetch]

/-- The instance of C8 as amended at `twoActionService`: its first action cannot
be fetched, so `process` returns the fetch error and saves nothing. -/
theorem process_fetch_error_ends_service_witness :
    Service.process sampleWorld twoActionService "sonarqube" =
      .returned ([], some "could not fetch example: error sending reqeust: connection refused") :=
  process_fetch_error_ends_service sampleWorld twoActionService "sonarqube" []
    (sampleAction "unreachable" []) [sampleAction "version" []]
    (twoActionService.initialFiles sampleWorld twoActionService.endpoint)
    "error sending reqeust: connection refused" rfl (by decide) rfl (by decide) rfl rfl

/-- C8 fails on `twoActionService`: the example of its first action cannot be
fetched, and `process` returns that error with no file saved, so nothing is
generated for the second action, `version`; processed without the failing
sibling, the same action yields both generated files. -/
theorem process_fetch_error_cancels_sibling :
    Service.process sampleWorld twoActionService "sonarqube" =
        .returned ([], some "could not fetch example: error sending reqeust: connection refused") ∧
      ∃ typesFile serviceFile,
        Service.process sampleWorld oneActionService "sonarqube" =
          .returned ([("sonarqube/server/server_gen.go", typesFile),
            ("sonarqube/server_gen.go", serviceFile)], none) ∧
        typesFile.items.length = 4 ∧ serviceFile.items.length = 3 :=
  ⟨rfl, _, _, rfl, rfl, rfl⟩

/-- C9: let the server answer the request of `fetchExample` with a body that
decodes to the envelope `responseExample`.  If its format tag is one of txt,
xml, svg, log, proto, `fetchExample` returns, with a nil error, the object whose
two entries are "example", the raw text unchanged, and "format", the tag.  If
the tag is none of json, txt, xml, svg, log, proto, it returns the nil value and
the error "unsupported response format" followed by the tag. -/
theorem fetchExample_by_format (w : World) (a : Action) (endpoint body : String)
    (responseExample : Example)
    (hdo : w.clientDo ⟨a.responseTypeName w, a.id w, a.Key, "api/" ++ endpoint⟩ =
      .ok (.ok body))
    (hdecode : w.unmarshalExample body = .ok responseExample) :
    (responseExample.Format ∈ ["txt", "xml", "svg", "log", "proto"] →
        a.fetchExample w endpoint =
          (.obj [("example", .str responseExample.Example),
            ("format", .str responseExample.Format)], none)) ∧
      (responseExample.Format ∉ ["json", "txt", "xml", "svg", "log", "proto"] →
        a.fetchExample w endpoint =
          (.null, some ("unsupported response format " ++ responseExample.Format))) := by
  have hfetch : a.fetchExample w endpoint = decodeExample w responseExample := by
    simp only [Action.fetchExample, hdo, hdecode]
  rw [hfetch]
  constructor
  · intro h
    have hjson : responseExample.Format ≠ "json" := by
      intro e
      rw [e] at h
      revert h
      decide
    have hknown : responseExample.Format = "txt" ∨ responseExample.Format = "xml"
        ∨ responseExample.Format = "svg" ∨ responseExample.Format = "log"
        ∨ responseExample.Format = "proto" := by
      simpa using h
    simp only [decodeExample, if_neg hjson, if_pos hknown]
  · intro h
    have hjson : responseExample.Format ≠ "json" := fun e => h (by simp [e])
    have hknown : ¬ (responseExample.Format = "txt" ∨ responseExample.Format = "xml"
        ∨ responseExample.Format = "svg" ∨ responseExample.Format = "log"
        ∨ responseExample.Format = "proto") := by
      intro hk
      apply h
      simp only [List.mem_cons]
      exact Or.inr (by simpa using hk)
    simp only [decodeExample, if_neg hjson, if_neg hknown]

/-- The instances of C9 at `sampleWorld`: the text example of action `version`
comes back wrapped, with its two entries, and the `pdf` example of action
`export` is refused. -/
theorem fetchExample_by_format_witness :
    (sampleAction "version" []).fetchExample sampleWorld "server" =
        (.obj [("example", .str "hello world"), ("format", .str "txt")], none) ∧
      (sampleAction "export" []).fetchExample sampleWorld "server" =
        (.null, some "unsupported response format pdf") :=
  ⟨(fetchExample_by_format sampleWorld (sampleAction "version" []) "server" "version"
      ⟨"txt", "hello world"⟩ rfl rfl).1 (by decide),
    (fetchExample_by_format sampleWorld (sampleAction "export" []) "server" "export"
      ⟨"pdf", "%PDF"⟩ rfl rfl).2 (by decide)⟩

/-- C10: for every Map-shaped primary response field, the generated paging
function ends in the body that returns the response's own Paging child,
`return &r.Paging`, if and only if the exact name "Paging" is among the
accessors; with accessors that only resemble it ("paging", "PagingInfo",
"Pagings") the function ends in the other body. -/
theorem pagingFunc_returns_own_paging_iff (w : World) (a : Action) (name : String)
    (accessors : List String) (fields : List Field) :
    ((a.responseStructPagingFunc w (.MapField name accessors fields)).getLast? =
        some returnOwnPaging ↔ "Paging" ∈ accessors) ∧
      (a.responseStructPagingFunc w
        (.MapField name ["paging", "PagingInfo", "Pagings"] fields)).getLast? =
        some returnPagingLiteral := by
  constructor
  · by_cases h : "Paging" ∈ accessors
    · have hc : contains "Paging" accessors = true := (contains_iff_mem _ _).2 h
      simp [Action.responseStructPagingFunc, Field.isMapField, Field.Accessors, hc, h]
    · have hc : contains "Paging" accessors = false := by
        cases hb : contains "Paging" accessors with
        | false => rfl
        | true => exact absurd ((contains_iff_mem _ _).1 hb) h
      simp [Action.responseStructPagingFunc, Field.isMapField, Field.Accessors, hc, h,
        returnOwnPaging, returnPagingLiteral]
  · have hc : contains "Paging" ["paging", "PagingInfo", "Pagings"] = false := by decide
    simp [Action.responseStructPagingFunc, Field.isMapField, Field.Accessors, hc]

theorem charsLess_iff (l1 l2 : List Char) : charsLess l1 l2 = true ↔ l1 < l2 := by
  induction l1 generalizing l2 with
  | nil =>
    cases l2 with
    | nil => simp [charsLess]
    | cons b bs => simpa [charsLess] using List.nil_lt_cons b bs
  | cons a as ih =>
    cases l2 with
    | nil => simp [charsLess]
    | cons b bs =>
      by_cases hab : a = b
      · subst hab
        simp only [charsLess, if_true]
        exact (ih bs).trans List.Lex.cons_iff.symm
      · simp only [charsLess, hab, if_false, decide_eq_true_eq]
        constructor
        · intro h
          exact List.Lex.rel h
        · intro h
          cases h with
          | cons h2 => exact absurd rfl hab
          | rel h2 => exact h2

theorem stringLess_iff (a b : String) : stringLess a b = true ↔ a < b := by
  unfold stringLess
  rw [charsLess_iff]
  exact String.lt_iff_toList_lt.symm

theorem stringLess_eq_false_iff (a b : String) : stringLess b a = false ↔ a ≤ b := by
  rw [← not_lt, ← stringLess_iff]
  simp

theorem sortStrings_eq (keys : List String) :
    sortStrings keys = keys.insertionSort (· ≤ ·) := by
  unfold sortStrings
  induction keys with
  | nil => rfl
  | cons k rest ih =>
    simp only [List.insertionSort]
    rw [ih]
    generalize List.insertionSort (· ≤ ·) rest = l
    induction l with
    | nil => rfl
    | cons x xs ihx =>
      simp only [List.orderedInsert]
      by_cases h : k ≤ x
      · rw [if_pos h, if_pos ((stringLess_eq_false_iff k x).2 h)]
      · rw [if_neg h, if_neg (fun h2 => h ((stringLess_eq_false_iff k x).1 h2)), ihx]

/-- C11 fails on the code.  For a Map-shaped field without a "Paging" accessor,
here one with the accessors "P", "Ps", "Total" and "Components", the generated
paging function ends in `return &paging.Paging` over an empty `Dict`: no field
of the `Paging` value is set, and the body differs from the one that would set
`PageIndex`, `PageSize` and `Total` from `r.P`, `r.Ps` and `r.Total`.  The same
holds for every accessor list without "Paging". -/
theorem pagingFunc_without_paging_accessor_sets_nothing (w : World) (a : Action)
    (name : String) (fields : List Field) :
    (a.responseStructPagingFunc w
        (.MapField name ["P", "Ps", "Total", "Components"] fields)).getLast? =
        some returnPagingLiteral ∧
      returnPagingLiteral =
        Code.group .block
          [Code.stmt [Code.group .ret [Code.stmt [Code.op "&",
            Code.qual "github.com/shijl0925/go-sonarqube/sonarqube/paging" "Paging",
            Code.group .block [Code.group .dict []]]]]] ∧
      returnPagingLiteral ≠ returnSynthesizedPaging ∧
      (∀ accessors : List String, "Paging" ∉ accessors →
        (a.responseStructPagingFunc w (.MapField name accessors fields)).getLast? =
          some returnPagingLiteral) := by
  refine ⟨?_, rfl, ?_, ?_⟩
  · have hc : contains "Paging" ["P", "Ps", "Total", "Components"] = false := by decide
    simp [Action.responseStructPagingFunc, Field.isMapField, Field.Accessors, hc]
  · simp [returnPagingLiteral, returnSynthesizedPaging]
  · intro accessors h
    have hc : contains "Paging" accessors = false := by
      cases hb : contains "Paging" accessors with
      | false => rfl
      | true => exact absurd ((contains_iff_mem _ _).1 hb) h
    simp [Action.responseStructPagingFunc, Field.isMapField, Field.Accessors, hc]

/-- C12: for every object, whose keys are distinct, `sortedKeys` returns a
rearrangement of its keys, so each key once and nothing else, in strictly
ascending order; and every other enumeration order of the same entries gives
the same list. -/
theorem sortedKeys_sorted_and_order_independent (m : GoMap)
    (hkeys : (GoMap.keys m).Nodup) :
    (sortedKeys m).Perm (GoMap.keys m) ∧
      (sortedKeys m).Nodup ∧
      (∀ k, k ∈ sortedKeys m ↔ k ∈ GoMap.keys m) ∧
      (sortedKeys m).Sorted (· < ·) ∧
      (∀ m2 : GoMap, m2.Perm m → sortedKeys m2 = sortedKeys m) := by
  have hperm : (sortedKeys m).Perm (GoMap.keys m) := by
    unfold sortedKeys
    rw [sortStrings_eq]
    exact List.perm_insertionSort _ _
  have hsorted : (sortedKeys m).Sorted (· ≤ ·) := by
    unfold sortedKeys
    rw [sortStrings_eq]
    exact List.sorted_insertionSort _ _
  have hnodup : (sortedKeys m).Nodup := hperm.nodup_iff.2 hkeys
  refine ⟨hperm, hnodup, fun k => hperm.mem_iff, hsorted.lt_of_le hnodup, ?_⟩
  intro m2 h2
  have hkeys2 : (GoMap.keys m2).Perm (GoMap.keys m) := h2.map Prod.fst
  unfold sortedKeys
  rw [sortStrings_eq, sortStrings_eq]
  apply List.eq_of_perm_of_sorted (r := (· ≤ ·))
  · exact ((List.perm_insertionSort _ _).trans hkeys2).trans (List.perm_insertionSort _ _).symm
  · exact List.sorted_insertionSort _ _
  · exact List.sorted_insertionSort _ _

/-- The instance of C12 at the paging example: its five keys are distinct, they
come out as "components", "p", "paging", "ps", "total", and the example with its
entries in the reverse order gives the same list. -/
theorem sortedKeys_sorted_and_order_independent_witness :
    (GoMap.keys pagingExample).Nodup ∧
      sortedKeys pagingExample = ["components", "p", "paging", "ps", "total"] ∧
      sortedKeys scrambledPagingExample = sortedKeys pagingExample :=
  ⟨by decide, by decide,
    (sortedKeys_sorted_and_order_independent pagingExample (by decide)).2.2.2.2
      scrambledPagingExample (List.reverse_perm pagingExample)⟩

/-- C13: the request struct `RequestStructGenerator.generate` emits has one
field slot per declared parameter, in the order of the parameters; slot `i` is
left nil when the key of parameter `i` is "p", "ps" or one of
`skippedRequestFields`, and holds the rendered parameter otherwise. -/
theorem requestStruct_slots_follow_parameters (w : World) (action : Action) :
    ∃ fields : List Code,
      (RequestStructGenerator.generate w action).getLast? =
        some (Code.group .struct fields) ∧
      fields.length = action.Params.length ∧
      ∀ (i : Nat) (param : Param), action.Params[i]? = some param →
        fields[i]? = some
          (if param.Key = "p" ∨ param.Key = "ps" ∨ param.Key ∈ skippedRequestFields
            then Code.nilCode else Code.stmt (param.render w action.Post)) := by
  refine ⟨action.Params.map (requestField w action.Post), ?_, by simp, ?_⟩
  · unfold RequestStructGenerator.generate
    by_cases hd : action.DeprecatedSince = ""
    · simp [hd]
    · simp [hd]
  · intro i param hi
    rw [List.getElem?_map, hi]
    simp only [Option.map_some']
    congr 1
    unfold requestField
    by_cases hk : param.Key = "p" ∨ param.Key = "ps" ∨ param.Key ∈ skippedRequestFields
    · have hc : contains param.Key (skippedRequestFields ++ ["p", "ps"]) = true := by
        rw [contains_iff_mem]
        simp only [List.mem_append, List.mem_cons, List.mem_singleton]
        tauto
      rw [if_pos hc, if_pos hk]
    · have hc : ¬ contains param.Key (skippedRequestFields ++ ["p", "ps"]) = true := by
        rw [contains_iff_mem]
        simp only [List.mem_append, List.mem_cons, List.mem_singleton]
        intro hmem
        apply hk
        simp only [List.not_mem_nil, or_false] at hmem
        tauto
      rw [if_neg hc, if_neg hk]

/-- C14 fails on the code.  The GET action `tags` declares "q" and "ps" and no
"p".  Its "ps" is not among `skippedRequestFields`, yet the request struct has
no field for it (the slot is nil), the action has no paging, and the generated
service function takes `ctx` and `r` only: in the place of the `paging.Params`
parameter stands `Empty()`. -/
theorem page_size_without_page_index_is_dropped (w : World) (s : Service)
    (endpoint : String) :
    contains "ps" skippedRequestFields = false ∧
      pageSizeOnlyAction.hasPaging = false ∧
      (RequestStructGenerator.generate w pageSizeOnlyAction).getLast? =
        some (Code.group .struct [Code.stmt ((sampleParam "q").render w false), Code.nilCode]) ∧
      (s.getServiceFunc w pageSizeOnlyAction endpoint)[5]? =
        some (Code.group .params
          [Code.stmt [Code.id "ctx", Code.qual "context" "Context"],
           Code.stmt [Code.id "r",
             Code.qual (qualifier endpoint) (pageSizeOnlyAction.requestTypeName w)],
           Code.stmt Empty]) := by
  refine ⟨by decide, by decide, ?_, ?_⟩
  · have h1 : contains "q" (skippedRequestFields ++ ["p", "ps"]) = false := by decide
    have h2 : contains "ps" (skippedRequestFields ++ ["p", "ps"]) = true := by decide
    simp [RequestStructGenerator.generate, pageSizeOnlyAction, sampleAction, sampleParam,
      requestField, h1, h2]
  · have hp : pageSizeOnlyAction.hasPaging = false := by decide
    simp [Service.getServiceFunc, hp, ifTrueGen]

end SonarqubeGen
